import Mathlib

/-!
Shallow embedding of `src/core.rs` of the tetris.rs repository: grid, blocks,
shapes with their rotation bitmask catalog, tetromino movement and rotation with
collision checks, landing, row clearing, and the game-loop controller state.

Modelling conventions:
* Rust `i32` coordinates are modelled as `Int` (the exact arithmetic; `i32`
  overflow would need coordinates of magnitude about `2^31`, far beyond the
  16 x 10 playground, and is not modelled).
* Rust `u8` cell values are `Nat`, with `% 256` inserted exactly where the
  source narrows (`as u8`) or where `u8` arithmetic wraps (the row-sum fold).
* `usize` casts of possibly-negative `i32` values are modelled by `asUsize`,
  which computes the value modulo `2^64`, exactly like `as usize` in Rust.
* Fallible operations return `Option`: `none` models a Rust panic (index out
  of range, failed `unwrap`).  A `Result<(), &str>` becomes
  `Except String Unit`, carrying the source's exact message strings.
* The two sources of randomness (`rand::random::<Shape>()` and
  `SliceRandom::choose`) are modelled by extra parameters: the shape drawn and
  the index drawn.  `choose` keeps its `None`-on-empty-slice semantics.
-/

instance {ε α : Type} [DecidableEq ε] [DecidableEq α] : DecidableEq (Except ε α) := fun x y =>
  match x, y with
  | .ok a, .ok b =>
      if h : a = b then .isTrue (congrArg Except.ok h)
      else .isFalse (fun hc => h (Except.ok.inj hc))
  | .error a, .error b =>
      if h : a = b then .isTrue (congrArg Except.error h)
      else .isFalse (fun hc => h (Except.error.inj hc))
  | .ok _, .error _ => .isFalse (fun hc => Except.noConfusion hc)
  | .error _, .ok _ => .isFalse (fun hc => Except.noConfusion hc)

/-- Colors from `src/ui.rs` (only the seven used by the shape catalog). -/
inductive Color
  | Blue
  | Yellow
  | Cyan
  | White
  | Magenta
  | Red
  | Green
deriving DecidableEq, Repr

/-- `pub const PLAYGROUND_WIDTH: i32 = 10`. -/
def PLAYGROUND_WIDTH : Int := 10

/-- `pub const PLAYGROUND_HEIGHT: i32 = 16`. -/
def PLAYGROUND_HEIGHT : Int := 16

/-- `struct Block { value: u8, color: Option<Color> }`. -/
structure Block where
  value : Nat
  color : Option Color
deriving DecidableEq, Repr

/-- `type Grid = [[Block; PLAYGROUND_WIDTH]; PLAYGROUND_HEIGHT]`, as a list of
rows; the fixed dimensions become an invariant (`gridDims`). -/
abbrev Grid := List (List Block)

/-- The 16 rows x 10 columns dimension invariant carried by every Rust `Grid`. -/
def gridDims (g : Grid) : Prop :=
  g.length = 16 ∧ ∀ row ∈ g, row.length = 10

instance (g : Grid) : Decidable (gridDims g) := by
  unfold gridDims; infer_instance

/-- `struct Coord { y: i32, x: i32 }`. -/
structure Coord where
  y : Int
  x : Int
deriving DecidableEq, Repr

/-- `enum Shape { O, I, S, Z, J, L, T }`. -/
inductive Shape
  | O
  | I
  | S
  | Z
  | J
  | L
  | T
deriving DecidableEq, Fintype, Repr

/-- `enum Direction { Left = -1, Right = 1 }`. -/
inductive Direction
  | Left
  | Right
deriving DecidableEq, Fintype, Repr

/-- The discriminant used by `direction as i32`. -/
def Direction.val : Direction → Int
  | .Left => -1
  | .Right => 1

/-- `Shape::get_color`. -/
def Shape.get_color : Shape → Color
  | .O => Color.Blue
  | .I => Color.Yellow
  | .S => Color.Cyan
  | .Z => Color.White
  | .J => Color.Magenta
  | .L => Color.Red
  | .T => Color.Green

/-- `Shape::get_possible_rotations`: the ordered rotation-encoding list
(`u16` values, here `Nat`). -/
def Shape.get_possible_rotations : Shape → List Nat
  | .O => [51]
  | .I => [8738, 240]
  | .S => [54, 561]
  | .Z => [99, 306]
  | .J => [275, 71, 802, 113]
  | .L => [547, 116, 785, 23]
  | .T => [114, 305, 39, 562]

/-- `slice::chunks(4)` specialised to chunk size 4, as used by `to_vec`
(the final chunk may be shorter, as for `slice::chunks`). -/
def chunks4 : List α → List (List α)
  | [] => []
  | [a] => [[a]]
  | [a, b] => [[a, b]]
  | [a, b, c] => [[a, b, c]]
  | a :: b :: c :: d :: rest => [a, b, c, d] :: chunks4 rest

/-- `Shape::to_vec`: decode a 16-bit rotation encoding into a 4x4 matrix,
MSB first, row-major.  The `&self` receiver is kept (it is unused, like in the
source): `(0..16).map(|i| (rotation >> (15 - i)) & 1).chunks(4)`. -/
def Shape.to_vec (_self : Shape) (rotation : Nat) : List (List Nat) :=
  chunks4 ((List.range 16).map (fun i => (rotation >>> (15 - i)) &&& 1))

/-- Flatten the source's two nested `enumerate` loops over a decoded matrix
into the row-major list of `(rowidx, colidx, value)` triples they visit. -/
def cells (tv : List (List Nat)) : List (Nat × Nat × Nat) :=
  (tv.enum.map (fun p => p.2.enum.map (fun q => (p.1, q.1, q.2)))).flatten

/-- Rust `v as usize` for an (arbitrarily signed) integer value: reduction
modulo `2^64`. -/
def asUsize (v : Int) : Nat :=
  (v % (18446744073709551616 : Int)).toNat

/-- Checked grid read `grid[r][c]`: `none` models the Rust index panic. -/
def gridGet (g : Grid) (r c : Nat) : Option Block :=
  match g.get? r with
  | none => none
  | some row => row.get? c

/-- Checked grid write `grid[r][c] = b`: `none` models the Rust index panic. -/
def gridSet (g : Grid) (r c : Nat) (b : Block) : Option Grid :=
  match g.get? r with
  | none => none
  | some row => if c < row.length then some (g.set r (row.set c b)) else none

/-- `struct Tetromino { grid, shape, color, topleft, current_rotation }`. -/
structure Tetromino where
  grid : Grid
  shape : Shape
  color : Color
  topleft : Coord
  current_rotation : Nat
deriving DecidableEq, Repr

/-- `SliceRandom::choose`: `None` on an empty slice, otherwise a uniformly
drawn element — modelled by an externally supplied draw index `i`. -/
def choose (l : List α) (i : Nat) : Option α :=
  if l.isEmpty then none else l.get? (i % l.length)

/-- `Tetromino::new(grid)`: the random shape and the random rotation draw are
parameters (`sh`, `i`); the `.unwrap()` on `choose` becomes the `Option`.
Anchor is `(y: 0, x: PLAYGROUND_WIDTH / 2 - 1)`. -/
def Tetromino.new (grid : Grid) (sh : Shape) (i : Nat) : Option Tetromino :=
  match choose sh.get_possible_rotations i with
  | none => none
  | some r =>
      some { grid := grid
             shape := sh
             color := sh.get_color
             topleft := { y := 0, x := PLAYGROUND_WIDTH / 2 - 1 }
             current_rotation := r }

/-- The cell scan of `Tetromino::move_sideways`: for each occupied mask cell,
bounds-check the shifted column, then read
`grid[rowidx + y as usize][next_step as usize]` (the row index addition is
`usize` arithmetic, hence the `% 2^64`).  `none` models the read panicking. -/
def checkSide (g : Grid) (y x d : Int) : List (Nat × Nat × Nat) → Option (Except String Unit)
  | [] => some (.ok ())
  | (ri, ci, v) :: rest =>
    if v ≠ 0 then
      let next_step : Int := (ci : Int) + x + d
      if ¬ (0 ≤ next_step ∧ next_step < PLAYGROUND_WIDTH) then
        some (.error "Out of bounds.")
      else
        match gridGet g ((ri + asUsize y) % 18446744073709551616) (asUsize next_step) with
        | none => none
        | some b =>
          if b.value ≠ 0 then some (.error "Collision.")
          else checkSide g y x d rest
    else checkSide g y x d rest

/-- `Tetromino::move_sideways`: on success the anchor column moves by
`direction as i32`; on `Err` the state is returned untouched (the source
mutates nothing before its early returns). -/
def Tetromino.move_sideways (t : Tetromino) (d : Direction) : Option (Except String Unit × Tetromino) :=
  match checkSide t.grid t.topleft.y t.topleft.x d.val (cells (t.shape.to_vec t.current_rotation)) with
  | none => none
  | some (.error e) => some (.error e, t)
  | some (.ok _) =>
      some (.ok (), { t with topleft := { y := t.topleft.y, x := t.topleft.x + d.val } })

/-- The cell scan of `Tetromino::move_down`: only `next_step.y >= HEIGHT` is
checked; the read `grid[next_step.y as usize][next_step.x as usize]` is
otherwise unchecked. -/
def checkDown (g : Grid) (y x : Int) : List (Nat × Nat × Nat) → Option (Except String Unit)
  | [] => some (.ok ())
  | (ri, ci, v) :: rest =>
    if v ≠ 0 then
      let ny : Int := (ri : Int) + y + 1
      let nx : Int := (ci : Int) + x
      if ny ≥ PLAYGROUND_HEIGHT then some (.error "Out of bounds.")
      else
        match gridGet g (asUsize ny) (asUsize nx) with
        | none => none
        | some b =>
          if b.value ≠ 0 then some (.error "Collision.")
          else checkDown g y x rest
    else checkDown g y x rest

/-- `Tetromino::move_down`: on success the anchor row increments. -/
def Tetromino.move_down (t : Tetromino) : Option (Except String Unit × Tetromino) :=
  match checkDown t.grid t.topleft.y t.topleft.x (cells (t.shape.to_vec t.current_rotation)) with
  | none => none
  | some (.error e) => some (.error e, t)
  | some (.ok _) =>
      some (.ok (), { t with topleft := { y := t.topleft.y + 1, x := t.topleft.x } })

/-- `i32::checked_rem_euclid`: `None` when the divisor is zero (the
`i32::MIN % -1` overflow case cannot arise here since the divisor is a slice
length). -/
def checked_rem_euclid (a b : Int) : Option Int :=
  if b = 0 then none else some (a % b)

/-- The prelude of `Tetromino::rotate`: locate the current rotation in the
catalog (`position(..).unwrap()`), step the index by `checked_rem_euclid`
(`.unwrap()`), and index the catalog.  `none` models any of these panicking. -/
def candRotation (t : Tetromino) (d : Direction) : Option Nat :=
  match (t.shape.get_possible_rotations).findIdx? (fun r => r == t.current_rotation) with
  | none => none
  | some current_index =>
    match checked_rem_euclid ((current_index : Int) + d.val)
        ((t.shape.get_possible_rotations).length : Int) with
    | none => none
    | some next_index => (t.shape.get_possible_rotations).get? (asUsize next_index)

/-- The cell scan of `Tetromino::rotate` over the candidate rotation's mask:
column bounds, then `next_step.y >= HEIGHT`, then the collision read
`grid[next_step.y as usize][next_step.x as usize]` (no `y < 0` check). -/
def checkRot (g : Grid) (y x : Int) : List (Nat × Nat × Nat) → Option (Except String Unit)
  | [] => some (.ok ())
  | (ri, ci, v) :: rest =>
    if v ≠ 0 then
      let ny : Int := (ri : Int) + y
      let nx : Int := (ci : Int) + x
      if ¬ (0 ≤ nx ∧ nx < PLAYGROUND_WIDTH) then some (.error "Out of bounds.")
      else if ny ≥ PLAYGROUND_HEIGHT then some (.error "Out of bounds.")
      else
        match gridGet g (asUsize ny) (asUsize nx) with
        | none => none
        | some b =>
          if b.value ≠ 0 then some (.error "Collision.")
          else checkRot g y x rest
    else checkRot g y x rest

/-- `Tetromino::rotate`: commit `current_rotation := candidate` only when every
occupied candidate cell passes; on `Err` the state is returned untouched. -/
def Tetromino.rotate (t : Tetromino) (d : Direction) : Option (Except String Unit × Tetromino) :=
  match candRotation t d with
  | none => none
  | some potential_rotation =>
    match checkRot t.grid t.topleft.y t.topleft.x (cells (t.shape.to_vec potential_rotation)) with
    | none => none
    | some (.error e) => some (.error e, t)
    | some (.ok _) => some (.ok (), { t with current_rotation := potential_rotation })

/-- `struct Game { grid, tetromino, paused, score, counter }` (`score: u64`,
`counter: u8`; both stay far below their wrap points, modelled as `Nat`). -/
structure Game where
  grid : Grid
  tetromino : Tetromino
  paused : Bool
  score : Nat
  counter : Nat
deriving DecidableEq, Repr

/-- `Game::create_empty_row`. -/
def Game.create_empty_row : List Block :=
  List.replicate 10 { value := 0, color := none }

/-- `Game::create_grid`. -/
def Game.create_grid : Grid :=
  List.replicate 16 Game.create_empty_row

/-- The row-sum of `Game::clear_rows`:
`row.iter().fold(0u8, |acc, x| acc + x.value)` — a `u8` fold, hence the
wrapping `% 256` at each step. -/
def rowSum (row : List Block) : Nat :=
  row.foldl (fun acc b => (acc + b.value) % 256) 0

/-- Number of rows of a grid whose `rowSum` is exactly `PLAYGROUND_WIDTH`. -/
def countFull (g : Grid) : Nat :=
  (g.filter (fun r => rowSum r == 10)).length

/-- `slice[..].rotate_right(1)` on a whole list. -/
def rotateRight1 (l : List α) : List α :=
  l.drop (l.length - 1) ++ l.take (l.length - 1)

/-- One clearing step of `Game::clear_rows` at row `i`:
`grid[i] = create_empty_row(); grid[..i + 1].rotate_right(1)`. -/
def clearStep (g : Grid) (i : Nat) : Grid :=
  rotateRight1 ((g.set i Game.create_empty_row).take (i + 1))
    ++ (g.set i Game.create_empty_row).drop (i + 1)

/-- The `for i in 0..grid.len()` loop body of `Game::clear_rows`: on a full
row, clear and rotate, refresh the tetromino's grid snapshot, and add
`PLAYGROUND_WIDTH` to the score. -/
def clearRowsAux (gm : Game) (i : Nat) : Nat → Game
  | 0 => gm
  | fuel + 1 =>
    if rowSum (gm.grid.getD i []) == 10 then
      clearRowsAux
        { gm with grid := clearStep gm.grid i
                  tetromino := { gm.tetromino with grid := clearStep gm.grid i }
                  score := gm.score + 10 }
        (i + 1) fuel
    else clearRowsAux gm (i + 1) fuel

/-- `Game::clear_rows`. -/
def Game.clear_rows (gm : Game) : Game :=
  clearRowsAux gm 0 gm.grid.length

/-- The write loop of `Game::land_tetromino`: for every occupied mask cell,
`grid[rowidx + y as usize][(colidx as i32 + x) as usize] =
 Block { value: column as u8, color: Some(color) }`.
`none` models the unchecked writes panicking. -/
def landWrites (g : Grid) (y x : Int) (col : Color) : List (Nat × Nat × Nat) → Option Grid
  | [] => some g
  | (ri, ci, v) :: rest =>
    if v ≠ 0 then
      match gridSet g ((ri + asUsize y) % 18446744073709551616)
          (asUsize ((ci : Int) + x)) { value := v % 256, color := some col } with
      | none => none
      | some g' => landWrites g' y x col rest
    else landWrites g y x col rest

/-- `Game::land_tetromino`: refuse with `Err("Game over.")` when the anchor
row is `<= 0`, otherwise write the piece's occupied cells into the game grid. -/
def Game.land_tetromino (gm : Game) : Option (Except String Game) :=
  if gm.tetromino.topleft.y ≤ 0 then some (.error "Game over.")
  else
    match landWrites gm.grid gm.tetromino.topleft.y gm.tetromino.topleft.x
        gm.tetromino.color (cells (gm.tetromino.shape.to_vec gm.tetromino.current_rotation)) with
    | none => none
    | some g' => some (.ok { gm with grid := g' })

/-- Modelled from the spec: the per-frame `tick()` entry point is in the
binary's main loop, not in `src/core.rs` (which only provides
`Game::handle_falling` without a pause gate and never calls
`Game::clear_rows`).  Per spec §4.4, `tick()` is a no-op while paused;
otherwise it advances the fall counter, at 5 attempts `move_down`, on failure
attempts landing (a failed landing is the GameOver signal, `.error ()`), and
after a successful landing immediately runs row clearing and spawns a fresh
piece from the post-clear grid.  `sh` and `i` are the spawn's random draws;
`none` models a panic in the underlying operations. -/
def Game.tick (gm : Game) (sh : Shape) (i : Nat) : Option (Except Unit Game) :=
  if gm.paused then some (.ok gm)
  else if gm.counter + 1 == 5 then
    match gm.tetromino.move_down with
    | none => none
    | some (.ok _, t') => some (.ok { gm with tetromino := t', counter := 0 })
    | some (.error _, _) =>
      match gm.land_tetromino with
      | none => none
      | some (.error _) => some (.error ())
      | some (.ok gm1) =>
        match Tetromino.new gm1.clear_rows.grid sh i with
        | none => none
        | some t => some (.ok { gm1.clear_rows with tetromino := t, counter := 0 })
  else some (.ok { gm with counter := gm.counter + 1 })

/-- The grid states reachable from the initial all-empty grid through the
core's only two grid-mutating operations: landing a piece and clearing rows
(movement and rotation never touch the game grid). -/
inductive GridReach : Grid → Prop
  | init : GridReach Game.create_grid
  | land (gm : Game) (gm' : Game) :
      GridReach gm.grid → gm.land_tetromino = some (.ok gm') → GridReach gm'.grid
  | clear (gm : Game) :
      GridReach gm.grid → GridReach gm.clear_rows.grid

/-- Count of 1-entries of a decoded 4x4 mask. -/
def countOnes (tv : List (List Nat)) : Nat :=
  (tv.flatten.filter (fun v => v == 1)).length

/-- The rows of a grid that survive `clear_rows`: those whose (wrapping) cell
sum is not `PLAYGROUND_WIDTH`. -/
def survivors (g : Grid) : Grid :=
  g.filter (fun r => !(rowSum r == 10))

/-- Whether the scan triple `p` is an occupied mask cell whose landing write
targets exactly grid position `(r, c)` (the write-index arithmetic of
`land_tetromino`). -/
def hitCell (y x : Int) (r c : Nat) (p : Nat × Nat × Nat) : Bool :=
  p.2.2 != 0 && r == (p.1 + asUsize y) % 18446744073709551616
    && c == asUsize ((p.2.1 : Int) + x)

/-- Every occupied cell of the mask `rot`, placed at anchor `(y, x)`, falls at
a row in `[0, HEIGHT)` and a column in `[0, WIDTH)`. -/
def maskInBounds (y x : Int) (s : Shape) (rot : Nat) : Prop :=
  ∀ p ∈ cells (s.to_vec rot), p.2.2 ≠ 0 →
    0 ≤ y + (p.1 : Int) ∧ y + (p.1 : Int) < 16
    ∧ 0 ≤ x + (p.2.1 : Int) ∧ x + (p.2.1 : Int) < 10

instance (y x : Int) (s : Shape) (rot : Nat) : Decidable (maskInBounds y x s rot) := by
  unfold maskInBounds; infer_instance

/-- Every cell value of the grid is 0 or 1 (the invariant behind the
`sum == WIDTH` full-row test). -/
def gridBinary (g : Grid) : Prop :=
  ∀ row ∈ g, ∀ b ∈ row, b.value ≤ 1

instance (g : Grid) : Decidable (gridBinary g) := by
  unfold gridBinary; infer_instance

/-- A concrete state on which all three movement operations fail: a horizontal
I piece (encoding 240, occupied cells in mask row 2) at anchor
`(y := 13, x := 0)` on an empty grid. -/
def tBoundary : Tetromino :=
  { grid := Game.create_grid, shape := .I, color := Color.Yellow,
    topleft := { y := 13, x := 0 }, current_rotation := 240 }

/-- A piece of shape `s` with rotation encoding `rot`, anchored well inside an
empty grid (the Rust test fixture position `(y := 5, x := 5)`). -/
def pieceAt (s : Shape) (rot : Nat) : Tetromino :=
  { grid := Game.create_grid, shape := s, color := s.get_color,
    topleft := { y := 5, x := 5 }, current_rotation := rot }

/-- Iterate `rotate` in a fixed direction, keeping only fully successful runs
(`none` as soon as one step panics or is rejected). -/
def rotN (t : Tetromino) (d : Direction) : Nat → Option Tetromino
  | 0 => some t
  | n + 1 =>
    match rotN t d n with
    | none => none
    | some t1 =>
      match t1.rotate d with
      | some (.ok _, t2) => some t2
      | _ => none

/-- A state refuting C6 as stated: a horizontal I piece at `x = 6` whose mask
cell `(2, 3)` would move right to column 10 (out of bounds), over a snapshot
whose cell `(2, 7)` is occupied so that the earlier mask cell `(2, 0)` hits a
collision first. -/
def tOverlap : Tetromino :=
  { grid := Game.create_grid.set 2 (Game.create_empty_row.set 7 { value := 1, color := none }),
    shape := .I, color := Color.Yellow,
    topleft := { y := 0, x := 6 }, current_rotation := 240 }

/-- A concrete game about to land: a vertical I piece (encoding 8738) at
`(y := 12, x := 3)` on an empty grid, fall counter at 4. -/
def gmLanding : Game :=
  { grid := Game.create_grid,
    tetromino :=
      { grid := Game.create_grid, shape := .I, color := Color.Yellow,
        topleft := { y := 12, x := 3 }, current_rotation := 8738 },
    paused := false, score := 0, counter := 4 }

/-- The game state produced by landing `gmLanding`'s piece. -/
def gmLanded : Game :=
  match gmLanding.land_tetromino with
  | some (.ok gm) => gm
  | _ => gmLanding

/-! ### Helper lemmas shared across the verification -/

/-- The row-major normal form of a decoded mask's cell scan, for any encoding. -/
theorem cells_to_vec_eq (s : Shape) (r : Nat) :
    cells (s.to_vec r) =
      [(0, 0, (r >>> 15) &&& 1), (0, 1, (r >>> 14) &&& 1), (0, 2, (r >>> 13) &&& 1), (0, 3, (r >>> 12) &&& 1),
       (1, 0, (r >>> 11) &&& 1), (1, 1, (r >>> 10) &&& 1), (1, 2, (r >>> 9) &&& 1), (1, 3, (r >>> 8) &&& 1),
       (2, 0, (r >>> 7) &&& 1), (2, 1, (r >>> 6) &&& 1), (2, 2, (r >>> 5) &&& 1), (2, 3, (r >>> 4) &&& 1),
       (3, 0, (r >>> 3) &&& 1), (3, 1, (r >>> 2) &&& 1), (3, 2, (r >>> 1) &&& 1), (3, 3, (r >>> 0) &&& 1)] := rfl

theorem and_one_le_one (n : Nat) : n &&& 1 ≤ 1 := by
  rw [Nat.and_one_is_mod]; omega

theorem cells_to_vec_val_le_one (s : Shape) (r : Nat) (p : Nat × Nat × Nat)
    (hp : p ∈ cells (s.to_vec r)) : p.2.2 ≤ 1 := by
  rw [cells_to_vec_eq] at hp
  fin_cases hp <;> exact and_one_le_one _

/-! ### C8: decoding -/

/-- C8: `to_vec` (decode) is a pure function of its 16-bit input — independent
of the `Shape` receiver — always yielding a 4x4 matrix whose entry at row `i`,
column `j` is bit `15 - (4*i + j)` of the encoding (MSB first, row-major) and
is at most 1; and for every encoding in every shape's rotation list the number
of 1s in the decoded matrix is exactly 4. -/
theorem to_vec_decode_correct :
    (∀ (s1 s2 : Shape) (r : Nat), s1.to_vec r = s2.to_vec r)
  ∧ (∀ (s : Shape) (r : Nat), (s.to_vec r).length = 4)
  ∧ (∀ (s : Shape) (r : Nat) (i j : Fin 4),
        ((s.to_vec r).getD i.val []).length = 4
      ∧ ((s.to_vec r).getD i.val []).getD j.val 2 = (r >>> (15 - (4 * i.val + j.val))) &&& 1
      ∧ (r >>> (15 - (4 * i.val + j.val))) &&& 1 ≤ 1)
  ∧ (∀ (s : Shape) (k : Fin s.get_possible_rotations.length),
        countOnes (s.to_vec (s.get_possible_rotations.get k)) = 4) := by
  refine ⟨fun s1 s2 r => rfl, fun s r => rfl, fun s r i j => ?_, by decide⟩
  fin_cases i <;> fin_cases j <;> exact ⟨rfl, rfl, and_one_le_one _⟩

/-! ### C3: failed moves have no partial effect -/

/-- C3: whenever `move_sideways`, `move_down` or `rotate` returns an `Err`
(`OutOfBounds` or `Collision`), the returned state — anchor, current rotation
and grid snapshot alike — is exactly the state before the call. -/
theorem move_error_no_partial_effect (t : Tetromino) (d : Direction) (e : String) (t' : Tetromino) :
    (t.move_sideways d = some (.error e, t') → t' = t)
  ∧ (t.move_down = some (.error e, t') → t' = t)
  ∧ (t.rotate d = some (.error e, t') → t' = t) := by
  refine ⟨?_, ?_, ?_⟩
  · intro h
    unfold Tetromino.move_sideways at h
    split at h
    · simp at h
    · simp at h; exact h.2.symm
    · simp at h
  · intro h
    unfold Tetromino.move_down at h
    split at h
    · simp at h
    · simp at h; exact h.2.symm
    · simp at h
  · intro h
    unfold Tetromino.rotate at h
    split at h
    · simp at h
    · split at h
      · simp at h
      · simp at h; exact h.2.symm
      · simp at h

theorem move_error_no_partial_effect_witness :
    tBoundary.move_sideways .Left = some (.error "Out of bounds.", tBoundary)
  ∧ tBoundary = tBoundary ∧ tBoundary = tBoundary ∧ tBoundary = tBoundary :=
  ⟨by decide,
   (move_error_no_partial_effect tBoundary .Left "Out of bounds." tBoundary).1 (by decide),
   (move_error_no_partial_effect tBoundary .Left "Out of bounds." tBoundary).2.1 (by decide),
   (move_error_no_partial_effect tBoundary .Left "Out of bounds." tBoundary).2.2 (by decide)⟩

/-! ### C7: rotation cycling -/

/-- C7: for each of the seven shapes, a piece positioned well inside an empty
grid and rotated repeatedly in one fixed direction succeeds at every step;
after `n+1` steps its current rotation is the catalog entry at index
`(start + (n+1) * direction) mod length` (Euclidean modulo, so rotating left
from index 0 wraps to the last index), so it cycles through the whole list and
returns to the exact starting state after `length` rotations. -/
theorem rotate_cycles_through_catalog :
    ∀ (s : Shape) (d : Direction) (k n : Fin s.get_possible_rotations.length),
      ((rotN (pieceAt s (s.get_possible_rotations.get k)) d (n.val + 1)).map
          (fun t => t.current_rotation)
        = s.get_possible_rotations.get?
            (((k.val : Int) + ((n.val : Int) + 1) * d.val) % (s.get_possible_rotations.length : Int)).toNat)
    ∧ rotN (pieceAt s (s.get_possible_rotations.get k)) d s.get_possible_rotations.length
        = some (pieceAt s (s.get_possible_rotations.get k)) := by
  decide

/-! ### C6: horizontal out-of-bounds handling -/

/-- If some occupied cell's target column is outside `[0, WIDTH)`, the
sideways cell scan can never report success. -/
theorem checkSide_ne_ok (g : Grid) (y x d : Int) (L : List (Nat × Nat × Nat))
    (h : ∃ c ∈ L, c.2.2 ≠ 0 ∧
        ¬ (0 ≤ (c.2.1 : Int) + x + d ∧ (c.2.1 : Int) + x + d < PLAYGROUND_WIDTH)) :
    ∀ u, checkSide g y x d L ≠ some (.ok u) := by
  induction L with
  | nil => rcases h with ⟨c, hc, _⟩; cases hc
  | cons p rest ih =>
    rcases h with ⟨c, hc, hocc, hoob⟩
    intro u
    obtain ⟨ri, ci, v⟩ := p
    rcases List.mem_cons.mp hc with hhd | hmem
    · subst hhd
      simp only [checkSide, if_pos hocc, if_neg (fun hb => hoob hb)]
      rw [if_pos hoob]
      simp
    · by_cases hv : v ≠ 0
      · simp only [checkSide, if_pos hv]
        by_cases hb : ¬ (0 ≤ (ci : Int) + x + d ∧ (ci : Int) + x + d < PLAYGROUND_WIDTH)
        · rw [if_pos hb]; simp
        · rw [if_neg hb]
          cases hg : gridGet g ((ri + asUsize y) % 18446744073709551616) (asUsize ((ci : Int) + x + d)) with
          | none => simp
          | some b =>
            by_cases hbv : b.value ≠ 0
            · simp [hbv]
            · simp only [show (match some b with
                  | none => (none : Option (Except String Unit))
                  | some b =>
                    if b.value ≠ 0 then some (.error "Collision.")
                    else checkSide g y x d rest) = if b.value ≠ 0 then some (.error "Collision.")
                    else checkSide g y x d rest from rfl, if_neg hbv]
              exact ih ⟨c, hmem, hocc, hoob⟩ u
      · simp only [checkSide, if_neg hv]
        exact ih ⟨c, hmem, hocc, hoob⟩ u

/-- C6 (amended): if any occupied cell of the current rotation's mask would
land at a column outside `[0, WIDTH)`, `move_sideways` never succeeds — it
either panics on an out-of-range snapshot read or returns an error
(`OutOfBounds`, or `Collision` when an occupied cell scanned earlier in
row-major order hits an occupied grid cell first) — and on an error it
mutates nothing. -/
theorem move_sideways_oob_never_succeeds (t : Tetromino) (d : Direction)
    (h : ∃ c ∈ cells (t.shape.to_vec t.current_rotation), c.2.2 ≠ 0 ∧
        ¬ (0 ≤ (c.2.1 : Int) + t.topleft.x + d.val
           ∧ (c.2.1 : Int) + t.topleft.x + d.val < PLAYGROUND_WIDTH)) :
    t.move_sideways d = none ∨ ∃ e, t.move_sideways d = some (.error e, t) := by
  unfold Tetromino.move_sideways
  cases hc : checkSide t.grid t.topleft.y t.topleft.x d.val
      (cells (t.shape.to_vec t.current_rotation)) with
  | none => exact Or.inl rfl
  | some r =>
    cases r with
    | error e => exact Or.inr ⟨e, rfl⟩
    | ok u => exact absurd hc (checkSide_ne_ok _ _ _ _ _ h u)

theorem move_sideways_oob_never_succeeds_witness :
    (∃ c ∈ cells (tBoundary.shape.to_vec tBoundary.current_rotation), c.2.2 ≠ 0 ∧
        ¬ (0 ≤ (c.2.1 : Int) + tBoundary.topleft.x + Direction.Left.val
           ∧ (c.2.1 : Int) + tBoundary.topleft.x + Direction.Left.val < PLAYGROUND_WIDTH))
  ∧ (tBoundary.move_sideways .Left = none
     ∨ ∃ e, tBoundary.move_sideways .Left = some (.error e, tBoundary)) :=
  ⟨by decide, move_sideways_oob_never_succeeds tBoundary .Left (by decide)⟩

/-- C6 counterexample: at `tOverlap`, moving right, an occupied mask cell's
target column (10) is out of bounds, yet `move_sideways` returns `Collision`,
not `OutOfBounds` — the code checks bounds and collision cell by cell in scan
order, not all bounds first. -/
theorem move_sideways_oob_counterexample :
    (∃ c ∈ cells (tOverlap.shape.to_vec tOverlap.current_rotation), c.2.2 ≠ 0 ∧
        ¬ (0 ≤ (c.2.1 : Int) + tOverlap.topleft.x + Direction.Right.val
           ∧ (c.2.1 : Int) + tOverlap.topleft.x + Direction.Right.val < PLAYGROUND_WIDTH))
  ∧ tOverlap.move_sideways .Right = some (.error "Collision.", tOverlap)
  ∧ tOverlap.move_sideways .Right ≠ some (.error "Out of bounds.", tOverlap) := by
  decide

/-! ### C1: row clearing -/

theorem getD_append_cons (A suf : Grid) (r : List Block) :
    (A ++ r :: suf).getD A.length [] = r := by
  induction A with
  | nil => rfl
  | cons a A ih => simpa using ih

theorem set_append_cons (A suf : Grid) (r e : List Block) :
    (A ++ r :: suf).set A.length e = A ++ e :: suf := by
  induction A with
  | nil => rfl
  | cons a A ih => simp [List.set, ih]

theorem take_append_cons (A suf : Grid) (e : List Block) :
    (A ++ e :: suf).take (A.length + 1) = A ++ [e] := by
  induction A with
  | nil => rfl
  | cons a A ih => simp [ih]

theorem drop_append_cons (A suf : Grid) (e : List Block) :
    (A ++ e :: suf).drop (A.length + 1) = suf := by
  induction A with
  | nil => rfl
  | cons a A ih => simpa using ih

theorem rotateRight1_append_singleton (A : Grid) (e : List Block) :
    rotateRight1 (A ++ [e]) = e :: A := by
  unfold rotateRight1
  have hl : (A ++ [e]).length - 1 = A.length := by simp
  rw [hl, List.drop_left, List.take_left]
  rfl

theorem clearStep_at (A suf : Grid) (r : List Block) :
    clearStep (A ++ r :: suf) A.length = Game.create_empty_row :: A ++ suf := by
  unfold clearStep
  rw [set_append_cons, take_append_cons, drop_append_cons, rotateRight1_append_singleton]

theorem countFull_cons (r : List Block) (g : Grid) :
    countFull (r :: g) = (if rowSum r == 10 then 1 else 0) + countFull g := by
  unfold countFull
  by_cases h : rowSum r == 10
  · simp [List.filter_cons, h, Nat.add_comm]
  · simp [List.filter_cons, h]

theorem survivors_cons (r : List Block) (g : Grid) :
    survivors (r :: g) = (if rowSum r == 10 then [] else [r]) ++ survivors g := by
  unfold survivors
  by_cases h : rowSum r == 10
  · simp [List.filter_cons, h]
  · simp [List.filter_cons, h]

theorem survivors_of_countFull_zero (g : Grid) (h : countFull g = 0) : survivors g = g := by
  unfold countFull at h
  rw [List.length_eq_zero] at h
  unfold survivors
  refine List.filter_eq_self.mpr (fun a ha => ?_)
  have := (List.filter_eq_nil_iff.mp h) a ha
  simpa using this

theorem replicate_append_cons (n : Nat) (a : List Block) (X : Grid) :
    List.replicate n a ++ a :: X = a :: (List.replicate n a ++ X) := by
  calc List.replicate n a ++ a :: X = (List.replicate n a ++ [a]) ++ X := by simp
    _ = List.replicate (n + 1) a ++ X := by rw [← List.replicate_succ' n a]
    _ = a :: (List.replicate n a ++ X) := by rw [List.replicate_succ]; rfl

theorem replicate_one_add (n : Nat) (a : List Block) :
    List.replicate (1 + n) a = a :: List.replicate n a := by
  rw [Nat.add_comm]
  rfl

theorem clearRowsAux_spec (suf : Grid) : ∀ (A : Grid) (gm : Game), gm.grid = A ++ suf →
    clearRowsAux gm A.length suf.length =
      { grid := List.replicate (countFull suf) Game.create_empty_row ++ A ++ survivors suf,
        score := gm.score + 10 * countFull suf,
        tetromino := if countFull suf = 0 then gm.tetromino
          else { gm.tetromino with
                 grid := List.replicate (countFull suf) Game.create_empty_row ++ A ++ survivors suf },
        paused := gm.paused, counter := gm.counter } := by
  induction suf with
  | nil =>
    rintro A ⟨gg, ⟨tg, ts, tc, ttl, tr⟩, gp, gs, gc⟩ hg
    simp only at hg
    subst hg
    simp [clearRowsAux, countFull, survivors]
  | cons r suf ih =>
    rintro A ⟨gg, ⟨tg, ts, tc, ttl, tr⟩, gp, gs, gc⟩ hg
    simp only at hg
    subst hg
    show clearRowsAux _ A.length (suf.length + 1) = _
    unfold clearRowsAux
    simp only
    rw [getD_append_cons, clearStep_at]
    by_cases h10 : rowSum r == 10
    · rw [if_pos h10]
      have hrec := ih (Game.create_empty_row :: A)
        (Game.mk (Game.create_empty_row :: A ++ suf)
          (Tetromino.mk (Game.create_empty_row :: A ++ suf) ts tc ttl tr) gp (gs + 10) gc)
        (by simp)
      simp only [List.length_cons] at hrec
      refine Eq.trans hrec ?_
      by_cases hcf : countFull suf = 0 <;>
        simp [countFull_cons, survivors_cons, h10, hcf, survivors_of_countFull_zero,
              replicate_append_cons, replicate_one_add] <;>
        omega
    · rw [if_neg h10]
      have hrec := ih (A ++ [r])
        (Game.mk (A ++ r :: suf) (Tetromino.mk tg ts tc ttl tr) gp gs gc)
        (by simp)
      have hlen : (A ++ [r]).length = A.length + 1 := by simp
      rw [hlen] at hrec
      refine Eq.trans hrec ?_
      by_cases hcf : countFull suf = 0 <;>
        simp [countFull_cons, survivors_cons, h10, hcf, survivors_of_countFull_zero,
              replicate_append_cons, replicate_one_add]

/-- C1: `clear_rows` scans rows top to bottom and, for each row whose (u8)
cell-value sum equals `PLAYGROUND_WIDTH`, replaces it by an empty row and
rotates rows `0..=i` down by one, each clear acting on the already-shifted
grid; the net effect is that the grid becomes `k` empty rows on top of the
non-full rows in order, and the score increases by exactly `k * WIDTH`, where
`k` is the number of full rows of the input grid. -/
theorem clear_rows_clears_and_scores (gm : Game) :
    gm.clear_rows.grid
      = List.replicate (countFull gm.grid) Game.create_empty_row ++ survivors gm.grid
  ∧ gm.clear_rows.score = gm.score + 10 * countFull gm.grid := by
  have h : clearRowsAux gm 0 gm.grid.length =
      { grid := List.replicate (countFull gm.grid) Game.create_empty_row ++ [] ++ survivors gm.grid,
        score := gm.score + 10 * countFull gm.grid,
        tetromino := if countFull gm.grid = 0 then gm.tetromino
          else { gm.tetromino with
                 grid := List.replicate (countFull gm.grid) Game.create_empty_row ++ []
                   ++ survivors gm.grid },
        paused := gm.paused, counter := gm.counter } := clearRowsAux_spec gm.grid [] gm rfl
  unfold Game.clear_rows
  rw [h]
  simp

/-! ### C5 and C4: the tick -/

/-- C5 (`tick` modelled from spec §4.4; the pause gate lives in the binary's
main loop, outside `src/core.rs`): while `paused` is set, `tick` is a complete
no-op — the fall counter does not advance and grid, score and active piece are
returned unchanged. -/
theorem tick_paused_is_noop (gm : Game) (sh : Shape) (i : Nat) (h : gm.paused = true) :
    gm.tick sh i = some (.ok gm) := by
  unfold Game.tick
  rw [h]
  rfl

theorem tick_paused_is_noop_witness :
    ({ gmLanding with paused := true } : Game).paused = true
  ∧ Game.tick { gmLanding with paused := true } Shape.O 0
      = some (.ok { gmLanding with paused := true }) :=
  ⟨rfl, tick_paused_is_noop { gmLanding with paused := true } Shape.O 0 rfl⟩

/-- A successful landing only writes the grid: every other `Game` field is
returned unchanged. -/
theorem land_ok_fields (gm gm' : Game) (h : gm.land_tetromino = some (.ok gm')) :
    gm'.tetromino = gm.tetromino ∧ gm'.score = gm.score ∧ gm'.paused = gm.paused
    ∧ gm'.counter = gm.counter := by
  unfold Game.land_tetromino at h
  split at h
  · simp at h
  · split at h
    · simp at h
    · simp only [Option.some.injEq, Except.ok.injEq] at h
      subst h
      simp

theorem choose_some (l : List α) (i : Nat) (h : l ≠ []) : ∃ a, choose l i = some a := by
  unfold choose
  rw [if_neg (by simpa using h)]
  have hlen : 0 < l.length := List.length_pos.mpr h
  have hm : i % l.length < l.length := Nat.mod_lt _ hlen
  exact ⟨l.get ⟨_, hm⟩, List.get?_eq_get hm⟩

/-- Spawning always succeeds (every shape's rotation list is non-empty) and
stores the supplied board as the new piece's snapshot. -/
theorem new_spec (g : Grid) (sh : Shape) (i : Nat) :
    ∃ t, Tetromino.new g sh i = some t ∧ t.grid = g := by
  obtain ⟨a, ha⟩ := choose_some sh.get_possible_rotations i
    (by cases sh <;> simp [Shape.get_possible_rotations])
  refine ⟨{ grid := g, shape := sh, color := sh.get_color,
            topleft := { y := 0, x := PLAYGROUND_WIDTH / 2 - 1 },
            current_rotation := a }, ?_, rfl⟩
  unfold Tetromino.new
  rw [ha]

/-- C4 (`tick` modelled from spec §4.4; `clear_rows` is invoked from the
binary's main loop, outside `src/core.rs`): during an unpaused tick that
reaches the fall threshold, when `move_down` fails and landing succeeds, row
clearing runs immediately: the resulting grid is the landed grid with every
full row cleared, the score grows by `WIDTH` per cleared row, and the new
active piece's grid snapshot equals the post-clear grid. -/
theorem tick_land_clears_and_refreshes (gm gm1 : Game) (sh : Shape) (i : Nat)
    (e : String) (td : Tetromino)
    (hp : gm.paused = false) (hc : gm.counter = 4)
    (hmd : gm.tetromino.move_down = some (.error e, td))
    (hld : gm.land_tetromino = some (.ok gm1)) :
    ∃ gm2, gm.tick sh i = some (.ok gm2)
      ∧ gm2.grid = List.replicate (countFull gm1.grid) Game.create_empty_row
          ++ survivors gm1.grid
      ∧ gm2.score = gm.score + 10 * countFull gm1.grid
      ∧ gm2.tetromino.grid = gm2.grid := by
  have hclear : clearRowsAux gm1 0 gm1.grid.length =
      { grid := List.replicate (countFull gm1.grid) Game.create_empty_row ++ []
          ++ survivors gm1.grid,
        score := gm1.score + 10 * countFull gm1.grid,
        tetromino := if countFull gm1.grid = 0 then gm1.tetromino
          else { gm1.tetromino with
                 grid := List.replicate (countFull gm1.grid) Game.create_empty_row ++ []
                   ++ survivors gm1.grid },
        paused := gm1.paused, counter := gm1.counter } := clearRowsAux_spec gm1.grid [] gm1 rfl
  obtain ⟨t, ht, htg⟩ := new_spec gm1.clear_rows.grid sh i
  refine ⟨{ gm1.clear_rows with tetromino := t, counter := 0 }, ?_, ?_, ?_, ?_⟩
  · unfold Game.tick
    rw [hp, hc]
    simp [hmd, hld, ht]
  · show gm1.clear_rows.grid = _
    unfold Game.clear_rows
    rw [hclear]
    simp
  · show gm1.clear_rows.score = _
    unfold Game.clear_rows
    rw [hclear]
    simp [(land_ok_fields gm gm1 hld).2.1]
  · simpa using htg

theorem tick_land_clears_and_refreshes_witness :
    ∃ gm2, gmLanding.tick Shape.O 0 = some (.ok gm2)
      ∧ gm2.grid = List.replicate (countFull gmLanded.grid) Game.create_empty_row
          ++ survivors gmLanded.grid
      ∧ gm2.score = gmLanding.score + 10 * countFull gmLanded.grid
      ∧ gm2.tetromino.grid = gm2.grid :=
  tick_land_clears_and_refreshes gmLanding gmLanded Shape.O 0 "Out of bounds."
    gmLanding.tetromino rfl rfl (by decide) (by decide)

/-! ### C2: landing -/

theorem gridSet_eq (g : Grid) (r c : Nat) (row : List Block) (b : Block)
    (hr : g.get? r = some row) (hc : c < row.length) :
    gridSet g r c b = some (g.set r (row.set c b)) := by
  unfold gridSet
  rw [hr]
  exact if_pos hc

theorem gridGet_set_self (g : Grid) (r c : Nat) (row : List Block) (b : Block)
    (hr : g.get? r = some row) (hc : c < row.length) :
    gridGet (g.set r (row.set c b)) r c = some b := by
  unfold gridGet
  have hrl : r < g.length := by
    rcases List.get?_eq_some.mp hr with ⟨h, _⟩
    exact h
  rw [List.get?_set_eq_of_lt _ hrl]
  exact List.get?_set_eq_of_lt _ (by simpa using hc)

theorem gridGet_set_other (g : Grid) (r c : Nat) (row : List Block) (b : Block)
    (r' c' : Nat) (hr : g.get? r = some row) (hne : r' ≠ r ∨ c' ≠ c) :
    gridGet (g.set r (row.set c b)) r' c' = gridGet g r' c' := by
  unfold gridGet
  rcases hne with hne | hne
  · rw [List.get?_set_ne _ _ (fun h => hne h.symm)]
  · by_cases hrr : r' = r
    · subst hrr
      have hrl : r' < g.length := by
        rcases List.get?_eq_some.mp hr with ⟨h, _⟩
        exact h
      rw [List.get?_set_eq_of_lt _ hrl, hr]
      simp only
      rw [List.get?_set_ne _ _ (fun h => hne h.symm)]
    · rw [List.get?_set_ne _ _ (fun h => hrr h.symm)]

theorem gridDims_set (g : Grid) (r c : Nat) (row : List Block) (b : Block)
    (hdim : gridDims g) (hr : g.get? r = some row) :
    gridDims (g.set r (row.set c b)) := by
  obtain ⟨hlen, hrows⟩ := hdim
  refine ⟨by simpa using hlen, fun row2 hrow2 => ?_⟩
  rcases List.mem_or_eq_of_mem_set hrow2 with h | h
  · exact hrows row2 h
  · subst h
    simpa using hrows row (List.get?_mem hr)

theorem target_inj (y x : Int) (ri ci qri qci : Nat) (hri : ri < 4) (hci : ci < 4)
    (hqri : qri < 4) (hqci : qci < 4)
    (hrow : (ri + asUsize y) % 18446744073709551616
      = (qri + asUsize y) % 18446744073709551616)
    (hcol : asUsize ((ci : Int) + x) = asUsize ((qci : Int) + x)) :
    ri = qri ∧ ci = qci := by
  unfold asUsize at hrow hcol
  omega

theorem cells_pos_lt (s : Shape) (rot : Nat) (p : Nat × Nat × Nat)
    (hp : p ∈ cells (s.to_vec rot)) : p.1 < 4 ∧ p.2.1 < 4 := by
  rw [cells_to_vec_eq] at hp
  fin_cases hp <;> refine ⟨?_, ?_⟩ <;> simp

theorem cells_pairwise (s : Shape) (rot : Nat) :
    List.Pairwise (fun p q : Nat × Nat × Nat => (p.1, p.2.1) ≠ (q.1, q.2.1))
      (cells (s.to_vec rot)) := by
  have h : ((cells (s.to_vec rot)).map (fun p => (p.1, p.2.1))).Pairwise (· ≠ ·) := by
    rw [show (cells (s.to_vec rot)).map (fun p => (p.1, p.2.1)) =
      [(0,0),(0,1),(0,2),(0,3),(1,0),(1,1),(1,2),(1,3),
       (2,0),(2,1),(2,2),(2,3),(3,0),(3,1),(3,2),(3,3)] from rfl]
    decide
  exact List.pairwise_map.mp h

theorem landWrites_spec (y x : Int) (col : Color) :
    ∀ (L : List (Nat × Nat × Nat)) (g : Grid),
    gridDims g →
    (∀ p ∈ L, p.2.2 ≠ 0 → (p.1 + asUsize y) % 18446744073709551616 < 16
        ∧ asUsize ((p.2.1 : Int) + x) < 10) →
    (∀ p ∈ L, p.1 < 4 ∧ p.2.1 < 4) →
    List.Pairwise (fun p q : Nat × Nat × Nat => (p.1, p.2.1) ≠ (q.1, q.2.1)) L →
    ∃ g', landWrites g y x col L = some g' ∧ gridDims g'
      ∧ ∀ r c, gridGet g' r c =
          match L.find? (hitCell y x r c) with
          | some p => some { value := p.2.2 % 256, color := some col }
          | none => gridGet g r c := by
  intro L
  induction L with
  | nil => exact fun g hdim _ _ _ => ⟨g, rfl, hdim, fun r c => rfl⟩
  | cons p rest ih =>
    intro g hdim hin hpos hdist
    obtain ⟨ri, ci, v⟩ := p
    obtain ⟨hhead, htail⟩ := List.pairwise_cons.mp hdist
    by_cases hv : v ≠ 0
    · have hb := hin _ (List.mem_cons_self _ _) hv
      have hrT : (ri + asUsize y) % 18446744073709551616 < 16 := hb.1
      have hcT : asUsize ((ci : Int) + x) < 10 := hb.2
      have hlt : (ri + asUsize y) % 18446744073709551616 < g.length := by
        rw [hdim.1]; exact hrT
      obtain ⟨row, hrow⟩ : ∃ row,
          g.get? ((ri + asUsize y) % 18446744073709551616) = some row :=
        ⟨g.get ⟨_, hlt⟩, List.get?_eq_get hlt⟩
      have hrl : row.length = 10 := hdim.2 row (List.get?_mem hrow)
      have hcl : asUsize ((ci : Int) + x) < row.length := by rw [hrl]; exact hcT
      have hset := gridSet_eq g _ _ row ⟨v % 256, some col⟩ hrow hcl
      have hdim1 := gridDims_set g ((ri + asUsize y) % 18446744073709551616)
        (asUsize ((ci : Int) + x)) row ⟨v % 256, some col⟩ hdim hrow
      obtain ⟨g', hw, hdim', hchar⟩ := ih
        (g.set ((ri + asUsize y) % 18446744073709551616)
          (row.set (asUsize ((ci : Int) + x)) ⟨v % 256, some col⟩)) hdim1
        (fun q hq hqv => hin q (List.mem_cons_of_mem _ hq) hqv)
        (fun q hq => hpos q (List.mem_cons_of_mem _ hq))
        htail
      refine ⟨g', ?_, hdim', ?_⟩
      · unfold landWrites
        rw [if_pos hv, hset]
        exact hw
      · intro r c
        by_cases hhit : hitCell y x r c (ri, ci, v) = true
        · have h3 : r = (ri + asUsize y) % 18446744073709551616
              ∧ c = asUsize ((ci : Int) + x) := by
            have := hhit
            simp [hitCell, hv] at this
            exact this
          rw [List.find?_cons_of_pos _ hhit]
          have hrestnone : rest.find? (hitCell y x r c) = none := by
            rw [List.find?_eq_none]
            intro q hq hqhit
            have hq3 : q.2.2 ≠ 0 ∧ r = (q.1 + asUsize y) % 18446744073709551616
                ∧ c = asUsize ((q.2.1 : Int) + x) := by
              have := hqhit
              simp [hitCell] at this
              exact ⟨this.1.1, this.1.2, this.2⟩
            have hqpos := hpos q (List.mem_cons_of_mem _ hq)
            have hppos := hpos _ (List.mem_cons_self _ _)
            have hinj := target_inj y x ri ci q.1 q.2.1 hppos.1 hppos.2 hqpos.1 hqpos.2
              (h3.1.symm.trans hq3.2.1) (h3.2.symm.trans hq3.2.2)
            exact hhead q hq (by rw [hinj.1, hinj.2])
          rw [hchar r c, hrestnone]
          simp only
          rw [h3.1, h3.2]
          exact gridGet_set_self g _ _ row _ hrow hcl
        · rw [List.find?_cons_of_neg _ hhit]
          rw [hchar r c]
          cases hfr : rest.find? (hitCell y x r c) with
          | some q => rfl
          | none =>
            simp only
            have hne : r ≠ (ri + asUsize y) % 18446744073709551616
                ∨ c ≠ asUsize ((ci : Int) + x) := by
              by_contra hcon
              push_neg at hcon
              exact hhit (by simp [hitCell, hv, hcon.1, hcon.2])
            exact gridGet_set_other g _ _ row _ r c hrow hne
    · obtain ⟨g', hw, hdim', hchar⟩ := ih g hdim
        (fun q hq hqv => hin q (List.mem_cons_of_mem _ hq) hqv)
        (fun q hq => hpos q (List.mem_cons_of_mem _ hq))
        htail
      have hv0 : v = 0 := by omega
      refine ⟨g', ?_, hdim', ?_⟩
      · unfold landWrites
        rw [if_neg hv]
        exact hw
      · intro r c
        rw [hchar r c, List.find?_cons_of_neg _ (by simp [hitCell, hv0])]

/-- C2: `land_tetromino` fails — with the GameOver error — exactly when the
anchor row is `<= 0`; with a positive anchor row (and the piece's occupied
cells inside the 16 x 10 grid) it succeeds, changing no field but the grid,
and the new grid holds, at exactly the positions written for occupied mask
cells, blocks whose value is the mask bit (as `u8`) and whose color is the
piece's color, every other cell being unchanged. -/
theorem land_tetromino_correct (gm : Game) :
    ((∃ eo, gm.land_tetromino = some (.error eo)) ↔ gm.tetromino.topleft.y ≤ 0)
  ∧ (gm.tetromino.topleft.y ≤ 0 → gm.land_tetromino = some (.error "Game over."))
  ∧ (0 < gm.tetromino.topleft.y → gridDims gm.grid →
     maskInBounds gm.tetromino.topleft.y gm.tetromino.topleft.x gm.tetromino.shape
       gm.tetromino.current_rotation →
     ∃ gm', gm.land_tetromino = some (.ok gm')
       ∧ gm'.tetromino = gm.tetromino ∧ gm'.score = gm.score
       ∧ gm'.paused = gm.paused ∧ gm'.counter = gm.counter
       ∧ gridDims gm'.grid
       ∧ ∀ r c, gridGet gm'.grid r c =
           match (cells (gm.tetromino.shape.to_vec gm.tetromino.current_rotation)).find?
               (hitCell gm.tetromino.topleft.y gm.tetromino.topleft.x r c) with
           | some p => some { value := p.2.2 % 256, color := some gm.tetromino.color }
           | none => gridGet gm.grid r c) := by
  have hgameover : gm.tetromino.topleft.y ≤ 0 →
      gm.land_tetromino = some (.error "Game over.") := by
    intro hy
    unfold Game.land_tetromino
    rw [if_pos hy]
  refine ⟨⟨?_, fun hy => ⟨"Game over.", hgameover hy⟩⟩, hgameover, ?_⟩
  · rintro ⟨eo, heo⟩
    unfold Game.land_tetromino at heo
    split at heo
    · assumption
    · split at heo
      · simp at heo
      · simp at heo
  · intro hy hdim hmask
    have hin : ∀ p ∈ cells (gm.tetromino.shape.to_vec gm.tetromino.current_rotation),
        p.2.2 ≠ 0 →
        (p.1 + asUsize gm.tetromino.topleft.y) % 18446744073709551616 < 16
        ∧ asUsize ((p.2.1 : Int) + gm.tetromino.topleft.x) < 10 := by
      intro p hp hpv
      obtain ⟨h1, h2, h3, h4⟩ := hmask p hp hpv
      unfold asUsize
      refine ⟨?_, ?_⟩ <;> omega
    obtain ⟨g', hw, hdim', hchar⟩ := landWrites_spec gm.tetromino.topleft.y
      gm.tetromino.topleft.x gm.tetromino.color _ gm.grid hdim hin
      (fun p hp => cells_pos_lt _ _ p hp) (cells_pairwise _ _)
    refine ⟨{ gm with grid := g' }, ?_, rfl, rfl, rfl, rfl, hdim', hchar⟩
    unfold Game.land_tetromino
    rw [if_neg (by omega), hw]

theorem land_tetromino_correct_witness :
    ∃ gm', gmLanding.land_tetromino = some (.ok gm')
      ∧ gm'.tetromino = gmLanding.tetromino ∧ gm'.score = gmLanding.score
      ∧ gm'.paused = gmLanding.paused ∧ gm'.counter = gmLanding.counter
      ∧ gridDims gm'.grid
      ∧ ∀ r c, gridGet gm'.grid r c =
          match (cells (gmLanding.tetromino.shape.to_vec
              gmLanding.tetromino.current_rotation)).find?
              (hitCell gmLanding.tetromino.topleft.y gmLanding.tetromino.topleft.x r c) with
          | some p => some { value := p.2.2 % 256, color := some gmLanding.tetromino.color }
          | none => gridGet gmLanding.grid r c :=
  (land_tetromino_correct gmLanding).2.2 (by decide) (by decide) (by decide)

/-! ### C9: cell values stay 0/1 on every reachable grid -/

theorem gridSet_preserves (g g1 : Grid) (r c : Nat) (b : Block) (hb : b.value ≤ 1)
    (hg : gridSet g r c b = some g1) (hbin : gridBinary g) (hdim : gridDims g) :
    gridBinary g1 ∧ gridDims g1 := by
  unfold gridSet at hg
  cases hrow : g.get? r with
  | none => rw [hrow] at hg; simp at hg
  | some row =>
    rw [hrow] at hg
    simp only at hg
    split at hg
    · simp only [Option.some.injEq] at hg
      subst hg
      refine ⟨?_, gridDims_set g r c row b hdim hrow⟩
      intro row2 hrow2 b2 hb2
      rcases List.mem_or_eq_of_mem_set hrow2 with h | h
      · exact hbin row2 h b2 hb2
      · subst h
        rcases List.mem_or_eq_of_mem_set hb2 with h2 | h2
        · exact hbin row (List.get?_mem hrow) b2 h2
        · subst h2
          exact hb
    · simp at hg

theorem landWrites_preserves (y x : Int) (col : Color) :
    ∀ (L : List (Nat × Nat × Nat)) (g g' : Grid), (∀ p ∈ L, p.2.2 ≤ 1) →
    landWrites g y x col L = some g' → gridBinary g → gridDims g →
    gridBinary g' ∧ gridDims g' := by
  intro L
  induction L with
  | nil =>
    intro g g' _ hw hbin hdim
    simp only [landWrites, Option.some.injEq] at hw
    subst hw
    exact ⟨hbin, hdim⟩
  | cons p rest ih =>
    intro g g' hval hw hbin hdim
    obtain ⟨ri, ci, v⟩ := p
    by_cases hv : v ≠ 0
    · unfold landWrites at hw
      rw [if_pos hv] at hw
      cases hg : gridSet g ((ri + asUsize y) % 18446744073709551616)
          (asUsize ((ci : Int) + x)) ⟨v % 256, some col⟩ with
      | none => rw [hg] at hw; simp at hw
      | some g1 =>
        rw [hg] at hw
        simp only at hw
        have hb1 : (⟨v % 256, some col⟩ : Block).value ≤ 1 := by
          have := hval _ (List.mem_cons_self _ _)
          simp only at this ⊢
          omega
        obtain ⟨hbin1, hdim1⟩ := gridSet_preserves g g1 _ _ _ hb1 hg hbin hdim
        exact ih g1 g' (fun q hq => hval q (List.mem_cons_of_mem _ hq)) hw hbin1 hdim1
    · unfold landWrites at hw
      rw [if_neg hv] at hw
      exact ih g g' (fun q hq => hval q (List.mem_cons_of_mem _ hq)) hw hbin hdim

theorem sum_le_length (row : List Block) (hbin : ∀ b ∈ row, b.value ≤ 1) :
    (row.map Block.value).sum ≤ row.length := by
  induction row with
  | nil => simp
  | cons b tl ih =>
    have hbv := hbin b (List.mem_cons_self _ _)
    have := ih (fun q hq => hbin q (List.mem_cons_of_mem _ hq))
    simp only [List.map_cons, List.sum_cons, List.length_cons]
    omega

theorem rowSum_eq_sum (row : List Block) : ∀ acc : Nat, (∀ b ∈ row, b.value ≤ 1) →
    acc + row.length ≤ 255 →
    row.foldl (fun a b => (a + b.value) % 256) acc = acc + (row.map Block.value).sum := by
  induction row with
  | nil => simp
  | cons b tl ih =>
    intro acc hbin hle
    have hbv : b.value ≤ 1 := hbin b (List.mem_cons_self _ _)
    have hlen : tl.length + 1 = (b :: tl).length := rfl
    have hmod : (acc + b.value) % 256 = acc + b.value := by
      apply Nat.mod_eq_of_lt
      simp only [List.length_cons] at hle
      omega
    simp only [List.foldl_cons, List.map_cons, List.sum_cons, hmod]
    rw [ih (acc + b.value) (fun q hq => hbin q (List.mem_cons_of_mem _ hq))
      (by simp only [List.length_cons] at hle; omega)]
    omega

theorem sum_eq_length_iff (row : List Block) (hbin : ∀ b ∈ row, b.value ≤ 1) :
    ((row.map Block.value).sum = row.length ↔ ∀ b ∈ row, b.value ≠ 0) := by
  induction row with
  | nil => simp
  | cons b tl ih =>
    have hbv := hbin b (List.mem_cons_self _ _)
    have htl := ih (fun q hq => hbin q (List.mem_cons_of_mem _ hq))
    have hsumle := sum_le_length tl (fun q hq => hbin q (List.mem_cons_of_mem _ hq))
    simp only [List.map_cons, List.sum_cons, List.length_cons, List.mem_cons]
    constructor
    · intro h
      intro b2 hb2
      rcases hb2 with rfl | hb2
      · omega
      · exact htl.mp (by omega) b2 hb2
    · intro h
      have hb1 : b.value ≠ 0 := h b (Or.inl rfl)
      have hall := htl.mpr (fun q hq => h q (Or.inr hq))
      omega

/-- For a 10-wide row of 0/1 cells, the wrapping `u8` row sum equals
`PLAYGROUND_WIDTH` exactly when all ten cells are occupied. -/
theorem rowSum_full_iff (row : List Block) (hlen : row.length = 10)
    (hbin : ∀ b ∈ row, b.value ≤ 1) :
    (rowSum row = 10 ↔ ∀ b ∈ row, b.value ≠ 0) := by
  unfold rowSum
  rw [rowSum_eq_sum row 0 hbin (by omega), Nat.zero_add]
  rw [← hlen]
  exact sum_eq_length_iff row hbin

/-- C9: every grid reachable from the initial all-empty grid through the
core's grid-mutating operations (landing writes only 0/1 mask bits, clearing
writes only empty rows) has all cell values 0 or 1 and keeps the 16 x 10
dimensions, so the `sum == WIDTH` full-row test is equivalent to all `WIDTH`
cells of the row being occupied. -/
theorem reachable_grid_binary (g : Grid) (h : GridReach g) :
    (∀ row ∈ g, ∀ b ∈ row, b.value ≤ 1)
  ∧ gridDims g
  ∧ ∀ row ∈ g, (rowSum row = 10 ↔ ∀ b ∈ row, b.value ≠ 0) := by
  have main : gridBinary g ∧ gridDims g := by
    induction h with
    | init => exact ⟨by decide, by decide⟩
    | land gm gm' hreach hland ih =>
      unfold Game.land_tetromino at hland
      split at hland
      · simp at hland
      · cases hw : landWrites gm.grid gm.tetromino.topleft.y gm.tetromino.topleft.x
            gm.tetromino.color
            (cells (gm.tetromino.shape.to_vec gm.tetromino.current_rotation)) with
        | none => rw [hw] at hland; simp at hland
        | some g2 =>
          rw [hw] at hland
          simp only [Option.some.injEq, Except.ok.injEq] at hland
          subst hland
          simp only
          exact landWrites_preserves _ _ _ _ _ _
            (fun p hp => cells_to_vec_val_le_one _ _ p hp) hw ih.1 ih.2
    | clear gm hreach ih =>
      have hclear : clearRowsAux gm 0 gm.grid.length =
          { grid := List.replicate (countFull gm.grid) Game.create_empty_row ++ []
              ++ survivors gm.grid,
            score := gm.score + 10 * countFull gm.grid,
            tetromino := if countFull gm.grid = 0 then gm.tetromino
              else { gm.tetromino with
                     grid := List.replicate (countFull gm.grid) Game.create_empty_row ++ []
                       ++ survivors gm.grid },
            paused := gm.paused, counter := gm.counter } := clearRowsAux_spec gm.grid [] gm rfl
      show gridBinary (Game.clear_rows gm).grid ∧ gridDims (Game.clear_rows gm).grid
      unfold Game.clear_rows
      rw [hclear]
      simp only [List.append_nil]
      constructor
      · intro row hrow b hb
        rcases List.mem_append.mp hrow with h | h
        · rw [List.eq_of_mem_replicate h] at hb
          rcases List.mem_replicate.mp hb with ⟨_, rfl⟩
          decide
        · exact ih.1 row (List.mem_of_mem_filter h) b hb
      · constructor
        · simp only [List.length_append, List.length_replicate]
          have := @List.length_eq_length_filter_add _ gm.grid (fun r => rowSum r == 10)
          unfold countFull survivors
          rw [ih.2.1] at this
          omega
        · intro row hrow
          rcases List.mem_append.mp hrow with h | h
          · rw [List.eq_of_mem_replicate h]
            decide
          · exact ih.2.2 row (List.mem_of_mem_filter h)
  exact ⟨main.1, main.2, fun row hrow => rowSum_full_iff row (main.2.2 row hrow) (main.1 row hrow)⟩

theorem reachable_grid_binary_witness :
    (∀ row ∈ Game.create_grid, ∀ b ∈ row, b.value ≤ 1)
  ∧ gridDims Game.create_grid
  ∧ ∀ row ∈ Game.create_grid, (rowSum row = 10 ↔ ∀ b ∈ row, b.value ≠ 0) :=
  reachable_grid_binary Game.create_grid GridReach.init

/-! ### C10: the unchecked operations cannot panic under the piece invariant -/

theorem asUsize_eq_toNat (v : Int) (h0 : 0 ≤ v) (hv : v < 18446744073709551616) :
    asUsize v = v.toNat := by
  unfold asUsize
  omega

theorem rowIdx_lt (y : Int) (ri : Nat) (h0 : 0 ≤ y + ri) (h16 : y + ri < 16) :
    (ri + asUsize y) % 18446744073709551616 = (y + ri).toNat := by
  unfold asUsize
  omega

theorem gridGet_some (g : Grid) (r c : Nat) (hdim : gridDims g) (hr : r < 16) (hc : c < 10) :
    ∃ b, gridGet g r c = some b := by
  have hr2 : r < g.length := by rw [hdim.1]; exact hr
  obtain ⟨row, hrow⟩ : ∃ row, g.get? r = some row := ⟨g.get ⟨r, hr2⟩, List.get?_eq_get hr2⟩
  have hc2 : c < row.length := by rw [hdim.2 row (List.get?_mem hrow)]; exact hc
  refine ⟨row.get ⟨c, hc2⟩, ?_⟩
  unfold gridGet
  rw [hrow]
  exact List.get?_eq_get hc2

theorem checkSide_ne_none (g : Grid) (y x d : Int) (hdim : gridDims g) :
    ∀ L, (∀ p ∈ L, p.2.2 ≠ 0 → 0 ≤ y + (p.1 : Int) ∧ y + (p.1 : Int) < 16) →
    checkSide g y x d L ≠ none := by
  intro L
  induction L with
  | nil => intro _; simp [checkSide]
  | cons p rest ih =>
    intro hrows
    obtain ⟨ri, ci, v⟩ := p
    by_cases hv : v ≠ 0
    · simp only [checkSide, if_pos hv]
      by_cases hb : ¬ (0 ≤ (ci : Int) + x + d ∧ (ci : Int) + x + d < PLAYGROUND_WIDTH)
      · rw [if_pos hb]; simp
      · rw [if_neg hb]
        rw [not_not] at hb
        have hr0 : 0 ≤ y + (ri : Int) := (hrows _ (List.mem_cons_self _ _) hv).1
        have hr16 : y + (ri : Int) < 16 := (hrows _ (List.mem_cons_self _ _) hv).2
        have hW : ((ci : Int) + x + d) < 10 := by
          have := hb.2
          unfold PLAYGROUND_WIDTH at this
          omega
        have hrw := rowIdx_lt y ri hr0 hr16
        obtain ⟨b, hbg⟩ := gridGet_some g ((y + ri).toNat) (asUsize ((ci : Int) + x + d))
          hdim (by omega) (by rw [asUsize_eq_toNat _ hb.1 (by omega)]; omega)
        rw [hrw, hbg]
        by_cases hbv : b.value ≠ 0
        · simp [hbv]
        · simp only [hbv, ite_false, if_neg]
          simp [hbv]
          exact fun hcon => ih (fun q hq hqv => hrows q (List.mem_cons_of_mem _ hq) hqv) (by rw [hcon])
    · simp only [checkSide, if_neg hv]
      exact ih (fun q hq hqv => hrows q (List.mem_cons_of_mem _ hq) hqv)

theorem checkDown_ne_none (g : Grid) (y x : Int) (hdim : gridDims g) :
    ∀ L, (∀ p ∈ L, p.2.2 ≠ 0 →
        0 ≤ y + (p.1 : Int) ∧ 0 ≤ x + (p.2.1 : Int) ∧ x + (p.2.1 : Int) < 10) →
    checkDown g y x L ≠ none := by
  intro L
  induction L with
  | nil => intro _; simp [checkDown]
  | cons p rest ih =>
    intro hrows
    obtain ⟨ri, ci, v⟩ := p
    by_cases hv : v ≠ 0
    · simp only [checkDown, if_pos hv]
      by_cases h16 : ((ri : Int) + y + 1) ≥ PLAYGROUND_HEIGHT
      · rw [if_pos h16]; simp
      · rw [if_neg h16]
        have hr0 : 0 ≤ y + (ri : Int) := (hrows _ (List.mem_cons_self _ _) hv).1
        have hc0 : 0 ≤ x + (ci : Int) := (hrows _ (List.mem_cons_self _ _) hv).2.1
        have hc10 : x + (ci : Int) < 10 := (hrows _ (List.mem_cons_self _ _) hv).2.2
        have h16b : (ri : Int) + y + 1 < 16 := by
          unfold PLAYGROUND_HEIGHT at h16
          omega
        have hrw : asUsize ((ri : Int) + y + 1) = ((ri : Int) + y + 1).toNat :=
          asUsize_eq_toNat _ (by omega) (by omega)
        have hcw : asUsize ((ci : Int) + x) = ((ci : Int) + x).toNat :=
          asUsize_eq_toNat _ (by omega) (by omega)
        obtain ⟨b, hbg⟩ := gridGet_some g (((ri : Int) + y + 1).toNat) (((ci : Int) + x).toNat)
          hdim (by omega) (by omega)
        rw [hrw, hcw, hbg]
        by_cases hbv : b.value ≠ 0
        · simp [hbv]
        · simp [hbv]
          exact fun hcon => ih (fun q hq hqv => hrows q (List.mem_cons_of_mem _ hq) hqv) (by rw [hcon])
    · simp only [checkDown, if_neg hv]
      exact ih (fun q hq hqv => hrows q (List.mem_cons_of_mem _ hq) hqv)

theorem checkRot_ne_none (g : Grid) (y x : Int) (hdim : gridDims g) :
    ∀ L, (∀ p ∈ L, p.2.2 ≠ 0 → 0 ≤ y + (p.1 : Int)) →
    checkRot g y x L ≠ none := by
  intro L
  induction L with
  | nil => intro _; simp [checkRot]
  | cons p rest ih =>
    intro hrows
    obtain ⟨ri, ci, v⟩ := p
    by_cases hv : v ≠ 0
    · simp only [checkRot, if_pos hv]
      by_cases hb : ¬ (0 ≤ (ci : Int) + x ∧ (ci : Int) + x < PLAYGROUND_WIDTH)
      · rw [if_pos hb]; simp
      · rw [if_neg hb]
        rw [not_not] at hb
        by_cases h16 : ((ri : Int) + y) ≥ PLAYGROUND_HEIGHT
        · rw [if_pos h16]; simp
        · rw [if_neg h16]
          have hr0 : 0 ≤ y + (ri : Int) := hrows _ (List.mem_cons_self _ _) hv
          have h16b : (ri : Int) + y < 16 := by
            unfold PLAYGROUND_HEIGHT at h16
            omega
          have hW : ((ci : Int) + x) < 10 := by
            have := hb.2
            unfold PLAYGROUND_WIDTH at this
            omega
          have hrw : asUsize ((ri : Int) + y) = ((ri : Int) + y).toNat :=
            asUsize_eq_toNat _ (by omega) (by omega)
          have hcw : asUsize ((ci : Int) + x) = ((ci : Int) + x).toNat :=
            asUsize_eq_toNat _ hb.1 (by omega)
          obtain ⟨b, hbg⟩ := gridGet_some g (((ri : Int) + y).toNat) (((ci : Int) + x).toNat)
            hdim (by omega) (by omega)
          rw [hrw, hcw, hbg]
          by_cases hbv : b.value ≠ 0
          · simp [hbv]
          · simp [hbv]
            exact fun hcon => ih (fun q hq hqv => hrows q (List.mem_cons_of_mem _ hq) hqv)
              (by rw [hcon])
    · simp only [checkRot, if_neg hv]
      exact ih (fun q hq hqv => hrows q (List.mem_cons_of_mem _ hq) hqv)

theorem candRotation_some (t : Tetromino) (d : Direction)
    (hmem : t.current_rotation ∈ t.shape.get_possible_rotations) :
    ∃ cand, candRotation t d = some cand := by
  unfold candRotation
  have hne : t.shape.get_possible_rotations ≠ [] := by
    intro h
    rw [h] at hmem
    cases hmem
  have hfind : (t.shape.get_possible_rotations.findIdx?
      (fun r => r == t.current_rotation)).isSome := by
    by_contra hc
    rw [Option.not_isSome_iff_eq_none, List.findIdx?_eq_none_iff] at hc
    have := hc t.current_rotation hmem
    simp at this
  obtain ⟨idx, hidx⟩ := Option.isSome_iff_exists.mp hfind
  simp only [hidx]
  have hlen0 : 0 < t.shape.get_possible_rotations.length := List.length_pos.mpr hne
  have hlen4 : t.shape.get_possible_rotations.length ≤ 4 := by
    cases t.shape <;> simp [Shape.get_possible_rotations]
  unfold checked_rem_euclid
  rw [if_neg (by omega : ¬((t.shape.get_possible_rotations.length : Int) = 0))]
  have hmod0 : 0 ≤ ((idx : Int) + d.val) % (t.shape.get_possible_rotations.length : Int) :=
    Int.emod_nonneg _ (by omega)
  have hmodlt : ((idx : Int) + d.val) % (t.shape.get_possible_rotations.length : Int)
      < (t.shape.get_possible_rotations.length : Int) :=
    Int.emod_lt_of_pos _ (by omega)
  have hidx2 : asUsize (((idx : Int) + d.val) % (t.shape.get_possible_rotations.length : Int))
      < t.shape.get_possible_rotations.length := by
    rw [asUsize_eq_toNat _ hmod0 (by omega)]
    omega
  exact ⟨_, List.get?_eq_get hidx2⟩

/-- C10: under the piece invariant — the current rotation is in the shape's
catalog, the snapshot and board grids are 16 x 10, and every occupied cell of
the current mask (and, for `rotate`, of the candidate mask) lies inside the
playground — none of the operations' unchecked grid accesses or unwraps can
panic: `move_sideways`, `move_down`, `rotate`, `land_tetromino` and the spawn
`Tetromino.new` never return `none`. -/
theorem unchecked_ops_never_panic (gm : Game) (d : Direction) (sh : Shape) (i : Nat)
    (hmem : gm.tetromino.current_rotation ∈ gm.tetromino.shape.get_possible_rotations)
    (hdim : gridDims gm.tetromino.grid)
    (hgdim : gridDims gm.grid)
    (hcur : maskInBounds gm.tetromino.topleft.y gm.tetromino.topleft.x gm.tetromino.shape
      gm.tetromino.current_rotation)
    (hcand : ∀ c, candRotation gm.tetromino d = some c →
      maskInBounds gm.tetromino.topleft.y gm.tetromino.topleft.x gm.tetromino.shape c) :
    gm.tetromino.move_sideways d ≠ none
  ∧ gm.tetromino.move_down ≠ none
  ∧ gm.tetromino.rotate d ≠ none
  ∧ gm.land_tetromino ≠ none
  ∧ Tetromino.new gm.grid sh i ≠ none := by
  refine ⟨?_, ?_, ?_, ?_, ?_⟩
  · unfold Tetromino.move_sideways
    cases hc : checkSide gm.tetromino.grid gm.tetromino.topleft.y gm.tetromino.topleft.x d.val
        (cells (gm.tetromino.shape.to_vec gm.tetromino.current_rotation)) with
    | none =>
      exact absurd hc (checkSide_ne_none _ _ _ _ hdim _
        (fun p hp hpv => ⟨(hcur p hp hpv).1, (hcur p hp hpv).2.1⟩))
    | some r => cases r <;> simp [hc]
  · unfold Tetromino.move_down
    cases hc : checkDown gm.tetromino.grid gm.tetromino.topleft.y gm.tetromino.topleft.x
        (cells (gm.tetromino.shape.to_vec gm.tetromino.current_rotation)) with
    | none =>
      exact absurd hc (checkDown_ne_none _ _ _ hdim _
        (fun p hp hpv => ⟨(hcur p hp hpv).1, (hcur p hp hpv).2.2.1, (hcur p hp hpv).2.2.2⟩))
    | some r => cases r <;> simp [hc]
  · obtain ⟨cand, hcd⟩ := candRotation_some gm.tetromino d hmem
    unfold Tetromino.rotate
    rw [hcd]
    cases hc : checkRot gm.tetromino.grid gm.tetromino.topleft.y gm.tetromino.topleft.x
        (cells (gm.tetromino.shape.to_vec cand)) with
    | none =>
      exact absurd hc (checkRot_ne_none _ _ _ hdim _
        (fun p hp hpv => (hcand cand hcd p hp hpv).1))
    | some r => cases r <;> simp [hc]
  · unfold Game.land_tetromino
    split
    · simp
    · have hin : ∀ p ∈ cells (gm.tetromino.shape.to_vec gm.tetromino.current_rotation),
          p.2.2 ≠ 0 →
          (p.1 + asUsize gm.tetromino.topleft.y) % 18446744073709551616 < 16
          ∧ asUsize ((p.2.1 : Int) + gm.tetromino.topleft.x) < 10 := by
        intro p hp hpv
        obtain ⟨h1, h2, h3, h4⟩ := hcur p hp hpv
        unfold asUsize
        refine ⟨?_, ?_⟩ <;> omega
      obtain ⟨g', hw, _, _⟩ := landWrites_spec gm.tetromino.topleft.y gm.tetromino.topleft.x
        gm.tetromino.color _ gm.grid hgdim hin
        (fun p hp => cells_pos_lt _ _ p hp) (cells_pairwise _ _)
      rw [hw]
      simp
  · obtain ⟨t, ht, _⟩ := new_spec gm.grid sh i
    rw [ht]
    simp

theorem unchecked_ops_never_panic_witness :
    gmLanding.tetromino.move_sideways .Right ≠ none
  ∧ gmLanding.tetromino.move_down ≠ none
  ∧ gmLanding.tetromino.rotate .Right ≠ none
  ∧ gmLanding.land_tetromino ≠ none
  ∧ Tetromino.new gmLanding.grid Shape.O 0 ≠ none :=
  unchecked_ops_never_panic gmLanding .Right Shape.O 0 (by decide) (by decide) (by decide)
    (by decide)
    (fun c hc => by
      rw [show candRotation gmLanding.tetromino .Right = some 240 from rfl] at hc
      cases hc
      decide)
